import Mathlib

/-!
Verification development for the OceanID AIS backend.

The definitions below are a shallow embedding of the Python sources
`backend/ais_decoder.py` and `backend/main.py`:

* strings are modelled as `List Char` so that every operation is a
  structurally recursive, kernel-evaluable function;
* Python `int(s)` / `int(s, 16)` are modelled by `pyIntDec` / `pyIntHex`
  (whitespace, optional sign, optional `0x` prefix for base 16, digits with
  single underscores between them);
* the Valkey/Redis store is modelled as a record of key-indexed maps, with
  each client command of `ValkeyAISStore` a separate state transformer
  (each command is one round trip to the store, executed atomically by the
  server on its own but with no transaction around a group of commands);
* key expiry (`EXPIRE`) is modelled by keeping the expiry deadline next to
  the value and masking the value on reads at or after the deadline;
* wall-clock values (`time.time()`, `datetime.utcnow()`) are passed in as an
  explicit integer parameter `now` of epoch seconds; ISO-formatted timestamp
  strings are represented by the corresponding integer instant.
-/

namespace OceanID

/-- Python whitespace characters stripped by `str.strip()` and by `int()`
(ASCII subset; the unicode whitespace characters are not relevant to NMEA
traffic). -/
def isPyWhitespace (c : Char) : Bool :=
  c = ' ' ∨ c = '\t' ∨ c = '\n' ∨ c = '\r' ∨ c = Char.ofNat 11 ∨ c = Char.ofNat 12

/-- Python `str.strip()`: drop leading and trailing whitespace. -/
def pyStrip (l : List Char) : List Char :=
  ((l.dropWhile isPyWhitespace).reverse.dropWhile isPyWhitespace).reverse

/-- Python `str.split(sep)` for a one-character separator: always returns at
least one part, empty parts included. -/
def splitOnChar (sep : Char) : List Char → List (List Char)
  | [] => [[]]
  | c :: t =>
    if c = sep then [] :: splitOnChar sep t
    else
      match splitOnChar sep t with
      | h :: r => (c :: h) :: r
      | [] => [[c]]

/-- Value of a hexadecimal digit character, if it is one. -/
def hexDigitVal (c : Char) : Option Nat :=
  if '0' ≤ c ∧ c ≤ '9' then some (c.toNat - 48)
  else if 'a' ≤ c ∧ c ≤ 'f' then some (c.toNat - 87)
  else if 'A' ≤ c ∧ c ≤ 'F' then some (c.toNat - 55)
  else none

/-- Value of a decimal digit character, if it is one. -/
def decDigitVal (c : Char) : Option Nat :=
  if '0' ≤ c ∧ c ≤ '9' then some (c.toNat - 48) else none

/-- Digits of a Python integer literal after the first digit: digits in the
given base, a single underscore allowed between two digits. -/
def parseMoreDigits (dv : Char → Option Nat) (base : Nat) : List Char → Nat → Option Nat
  | [], acc => some acc
  | '_' :: c :: t, acc =>
    match dv c with
    | some d => parseMoreDigits dv base t (acc * base + d)
    | none => none
  | c :: t, acc =>
    match dv c with
    | some d => parseMoreDigits dv base t (acc * base + d)
    | none => none

/-- Digit run of a Python integer literal: at least one digit, single
underscores allowed between digits. -/
def parseDigitRun (dv : Char → Option Nat) (base : Nat) : List Char → Option Nat
  | c :: t =>
    match dv c with
    | some d => parseMoreDigits dv base t d
    | none => none
  | [] => none

/-- Body of Python `int(s, 16)` after whitespace and sign: an optional
`0x`/`0X` prefix (an underscore may follow the prefix), then hex digits. -/
def pyIntHexBody (l : List Char) : Option Nat :=
  match l with
  | '0' :: x :: rest =>
    if x = 'x' ∨ x = 'X' then
      match rest with
      | '_' :: rest' => parseDigitRun hexDigitVal 16 rest'
      | _ => parseDigitRun hexDigitVal 16 rest
    else parseDigitRun hexDigitVal 16 l
  | _ => parseDigitRun hexDigitVal 16 l

/-- Body of Python `int(s)` (base 10) after whitespace and sign. -/
def pyIntDecBody (l : List Char) : Option Nat :=
  parseDigitRun decDigitVal 10 l

/-- Python `int(s, base)` wrapper: strip whitespace, optional sign, then the
base-specific body; `none` models the `ValueError` raised on bad input. -/
def pyIntFrom (body : List Char → Option Nat) (l : List Char) : Option Int :=
  match pyStrip l with
  | '+' :: t => (body t).map (fun n => (n : Int))
  | '-' :: t => (body t).map (fun n => -(n : Int))
  | t => (body t).map (fun n => (n : Int))

/-- Python `int(s, 16)`. -/
def pyIntHex (l : List Char) : Option Int := pyIntFrom pyIntHexBody l

/-- Python `int(s)`. -/
def pyIntDec (l : List Char) : Option Int := pyIntFrom pyIntDecBody l

/-- Running exclusive-or of the byte values of a character list, exactly the
`calculated ^= ord(char)` loop of `AISDecoder.validate_checksum`. -/
def xorBytes (l : List Char) : Nat :=
  l.foldl (fun a c => a ^^^ c.toNat) 0

/-- Tail of `AISDecoder.validate_checksum` once the split has produced
exactly two parts: drop the first character of the message part (the leading
`!`), xor the remaining bytes, and compare with the hex value of the
checksum part; a failed hex parse raises in Python, caught and reported
`False`. -/
def checksumOk (msgPart checksum : List Char) : Bool :=
  match pyIntHex checksum with
  | some expected => ((xorBytes (msgPart.drop 1) : Int) == expected)
  | none => false

/-- `AISDecoder.validate_checksum`: report `False` when the sentence has no
`*` (a single part after the split); unpacking the split into two variables
raises in Python when there is more than one `*`, caught and reported
`False`; otherwise compare the running xor with the checksum suffix. -/
def validate_checksum (message : List Char) : Bool :=
  match splitOnChar '*' message with
  | [msgPart, checksum] => checksumOk msgPart checksum
  | _ => false

/-- `AISDecoder.get_ais_message_type`: map the first character of the armored
payload through the two-range alphabet and mask to six bits; characters
outside both ranges, and the empty payload, give `None`. -/
def get_ais_message_type (data : List Char) : Option Nat :=
  match data with
  | [] => none
  | first :: _ =>
    if ("0123456789:;<=>?".toList).contains first then
      some ((first.toNat - '0'.toNat) &&& 0x3F)
    else if ("@ABCDEFGHIJKLMNOPQRSTUVWXYZ[\\]^_".toList).contains first then
      some ((first.toNat - '@'.toNat + 16) &&& 0x3F)
    else none

/-- State of `AISDecoder.message_fragments`: a map from message-group
identifier to the set of fragment indices seen.  The Python object stores
nothing else for a group — in particular no arrival time and no payload
slices. -/
def FragMap : Type := List Char → Option (Finset Int)

/-- Fresh decoder state, `AISDecoder.__init__`. -/
def fragEmpty : FragMap := fun _ => none

/-- `AISDecoder._is_message_complete`: returns the completion verdict and the
updated fragment map.  A missing group identifier or a fragment count of 1 is
complete at once without touching the map; otherwise the fragment index is
added to the group's seen-set, the group is complete exactly when the
seen-set equals `{1..count}`, and a completed group is deleted. -/
def is_message_complete (st : FragMap) (messageId : Option (List Char))
    (fragmentNumber fragmentCount : Int) : Bool × FragMap :=
  match messageId with
  | none => (true, st)
  | some mid =>
    if fragmentCount = 1 then (true, st)
    else
      let seen := insert fragmentNumber ((st mid).getD ∅)
      if seen = Finset.Icc 1 fragmentCount then
        (true, fun k => if k = mid then none else st k)
      else
        (false, fun k => if k = mid then some seen else st k)

/-- Fields of the dictionary built by `AISDecoder.parse_nmea_message`, except
`is_complete` (and except the wall-clock `timestamp` string, which no claim
touches). -/
structure ParsedCore where
  raw : List Char
  talkerId : List Char
  sentenceTypeField : List Char
  fragmentCount : Int
  fragmentNumber : Int
  messageId : Option (List Char)
  channel : List Char
  data : List Char
  checksum : Option (List Char)
deriving DecidableEq

/-- Pure part of `AISDecoder.parse_nmea_message`: strip the line, require the
`!` prefix and at least six comma-separated fields, parse the fragment
numbers (empty fields default to 1, a failed `int()` raises and yields
`None`), take the group identifier when non-empty, and split a checksum off
the payload field (two or more `*` in it raise and yield `None`). -/
def parse_fields (message : List Char) : Option ParsedCore :=
  let message := pyStrip message
  match message with
  | '!' :: _ =>
    (match splitOnChar ',' message with
     | p0 :: p1 :: p2 :: p3 :: p4 :: p5 :: _ =>
       (match (if p1 = [] then some 1 else pyIntDec p1),
              (if p2 = [] then some 1 else pyIntDec p2) with
        | some fc, some fn =>
          (match splitOnChar '*' p5 with
           | [d] =>
             some { raw := message, talkerId := (p0.drop 1).take 2,
                    sentenceTypeField := p0.drop 3,
                    fragmentCount := fc, fragmentNumber := fn,
                    messageId := if p3 = [] then none else some p3,
                    channel := p4, data := d, checksum := none }
           | [d, c] =>
             some { raw := message, talkerId := (p0.drop 1).take 2,
                    sentenceTypeField := p0.drop 3,
                    fragmentCount := fc, fragmentNumber := fn,
                    messageId := if p3 = [] then none else some p3,
                    channel := p4, data := d, checksum := some c }
           | _ => none)
        | _, _ => none)
     | _ => none)
  | _ => none

/-- Result of `AISDecoder.parse_nmea_message`: the parsed fields together
with the `is_complete` flag. -/
structure ParsedNmea where
  core : ParsedCore
  isComplete : Bool
deriving DecidableEq

/-- `AISDecoder.parse_nmea_message`: parse the fields, then compute
`is_complete` as `fragment_count == 1 or _is_message_complete(...)` — the
short-circuit means the fragment map is only consulted (and mutated) when
the fragment count is not 1.  Any parse failure returns `None` with the
state unchanged (the exceptions all fire before the map is touched). -/
def parse_nmea_message (st : FragMap) (message : List Char) :
    Option ParsedNmea × FragMap :=
  match parse_fields message with
  | none => (none, st)
  | some core =>
    if core.fragmentCount = 1 then (some ⟨core, true⟩, st)
    else
      let r := is_message_complete st core.messageId core.fragmentNumber core.fragmentCount
      (some ⟨core, r.1⟩, r.2)

/-- One fragment submission as seen by the fragment map: group identifier,
fragment index, fragment count. -/
def submit_step (st : FragMap) (sub : Option (List Char) × Int × Int) : FragMap :=
  (is_message_complete st sub.1 sub.2.1 sub.2.2).2

/-- Fold a sequence of fragment submissions over the fragment map. -/
def submit_all (st : FragMap) (subs : List (Option (List Char) × Int × Int)) : FragMap :=
  subs.foldl submit_step st

/-- A message decoded by `pyais` as consumed by `sort_ais`: every field is
accessed with `getattr(msg, name, default)`, so each attribute is optional.
The fields whose `getattr` default is the empty string (`shipname`,
`callsign`, `destination`) are modelled after that default is applied. -/
structure DecodedMsg where
  msgType : Option Int
  mmsi : Option Int
  lat : Option Rat
  lon : Option Rat
  speed : Option Rat
  course : Option Rat
  heading : Option Int
  turn : Option Rat
  status : Option Int
  accuracy : Option Bool
  timestamp : Option Int
  shipname : String
  callsign : String
  imo : Option Int
  shipTypeField : Option Int
  toBow : Option Int
  toStern : Option Int
  toPort : Option Int
  toStarboard : Option Int
  destination : String
  year : Option Int
  month : Option Int
  day : Option Int
  hour : Option Int
  minute : Option Int
  second : Option Int
  draught : Option Rat
deriving DecidableEq

/-- Python truthiness of an optional integer (`None` and `0` are falsy). -/
def truthyOptInt : Option Int → Bool
  | none => false
  | some n => n != 0

/-- Python truthiness of an optional float (`None` and `0.0` are falsy). -/
def truthyOptRat : Option Rat → Bool
  | none => false
  | some q => q != 0

/-- The `data` dictionary `sort_ais` builds for message types 1/2/3/18 and
hands to `ValkeyAISStore.update_ship_position`. -/
structure PosInput where
  mmsi : Option Int
  timestamp : Option Int
  lat : Option Rat
  lon : Option Rat
  accuracy : Bool
  sog : Option Rat
  cog : Option Rat
  heading : Option Int
  rot : Option Rat
  navStatus : Option Int
  messageType : Int
deriving DecidableEq

/-- The `data` dictionary `sort_ais` builds for message type 5 and hands to
`ValkeyAISStore.update_ship_info`. -/
structure StaticInput where
  mmsi : Option Int
  name : String
  callsign : String
  imo : Option Int
  shipTypeField : Option Int
  toBow : Option Int
  toStern : Option Int
  toPort : Option Int
  toStarboard : Option Int
  destination : String
  etaMonth : Option Int
  etaDay : Option Int
  etaHour : Option Int
  etaMinute : Option Int
  draught : Option Rat
deriving DecidableEq

/-- The `data` dictionary `sort_ais` builds for message type 4 and hands to
`ValkeyAISStore.update_base_station`. -/
structure BaseInput where
  mmsi : Option Int
  year : Option Int
  month : Option Int
  day : Option Int
  hour : Option Int
  minute : Option Int
  second : Option Int
  lat : Option Rat
  lon : Option Rat
  accuracy : Bool
deriving DecidableEq

/-- The `position_data` hash stored under `ship:position:{mmsi}`: the
optional keys `heading`, `rot` and `nav_status` are present only when the
corresponding input is not `None` (an `is not None` check, so a 0 heading is
stored). -/
structure PositionData where
  mmsi : Option Int
  lat : Option Rat
  lon : Option Rat
  sog : Option Rat
  cog : Option Rat
  accuracy : Bool
  timestamp : Int
  lastSeen : Int
  messageType : Int
  heading : Option Int
  rot : Option Rat
  navStatus : Option Int
deriving DecidableEq

/-- The `ship_info` hash stored under `ship:info:{mmsi}`. -/
structure ShipInfo where
  mmsi : Option Int
  vesselName : String
  callsign : String
  imo : Option Int
  shipTypeField : Option Int
  toBow : Option Int
  toStern : Option Int
  toPort : Option Int
  toStarboard : Option Int
  destination : String
  etaMonth : Option Int
  etaDay : Option Int
  etaHour : Option Int
  etaMinute : Option Int
  draught : Option Rat
  updatedAt : Int
deriving DecidableEq

/-- The `base_data` hash stored under `base:station:{mmsi}`. -/
structure BaseData where
  mmsi : Option Int
  lat : Option Rat
  lon : Option Rat
  accuracy : Bool
  year : Option Int
  month : Option Int
  day : Option Int
  hour : Option Int
  minute : Option Int
  second : Option Int
  updatedAt : Int
deriving DecidableEq

/-- State of the Valkey/Redis database as touched by `ValkeyAISStore`.  Keys
are indexed by the raw `mmsi` value interpolated into the key string (an
`Option Int`, since a `None` mmsi would form its own key `...:None`), except
the IMO index whose key is the non-zero IMO integer.  Values carry their
expiry deadline in the `...Expire` components; a key with no deadline never
expires. -/
structure ValkeyState where
  positionHash : Option Int → Option PositionData
  positionExpire : Option Int → Option Int
  geoIndex : Option Int → Option (Rat × Rat)
  infoHash : Option Int → Option ShipInfo
  imoIndex : Int → Option (Option Int)
  history : Option Int → List (PositionData × Int)
  baseHash : Option Int → Option BaseData
  baseExpire : Option Int → Option Int

/-- The empty database. -/
def emptyValkey : ValkeyState :=
  { positionHash := fun _ => none
    positionExpire := fun _ => none
    geoIndex := fun _ => none
    infoHash := fun _ => none
    imoIndex := fun _ => none
    history := fun _ => []
    baseHash := fun _ => none
    baseExpire := fun _ => none }

/-- Redis `ZADD key {member: score}`: update the member's score when the
member is already present, else append it. -/
def zadd (hist : List (PositionData × Int)) (member : PositionData) (score : Int) :
    List (PositionData × Int) :=
  if hist.any (fun e => e.1 == member) then
    hist.map (fun e => if e.1 == member then (member, score) else e)
  else hist ++ [(member, score)]

/-- Redis `ZREMRANGEBYSCORE key lo hi`: drop members whose score lies in the
closed interval. -/
def zremrangebyscore (hist : List (PositionData × Int)) (lo hi : Int) :
    List (PositionData × Int) :=
  hist.filter (fun e => !(lo ≤ e.2 ∧ e.2 ≤ hi : Bool))

/-- The `position_data` dictionary built at the top of
`update_ship_position`: `timestamp` is `data.get("timestamp") or
datetime.utcnow().isoformat()` (the `or` replaces a falsy value — `None` or
0 — with the current instant), `last_seen` is the current instant, and the
optional fields are copied only when not `None`. -/
def mkPositionData (data : PosInput) (now : Int) : PositionData :=
  { mmsi := data.mmsi
    lat := data.lat
    lon := data.lon
    sog := data.sog
    cog := data.cog
    accuracy := data.accuracy
    timestamp := match data.timestamp with
      | some ts => if ts ≠ 0 then ts else now
      | none => now
    lastSeen := now
    messageType := data.messageType
    heading := data.heading
    rot := data.rot
    navStatus := data.navStatus }

/-- Errors a store command can raise: `dataError` is redis-py's client-side
`DataError` (raised before anything is sent, for example on a `None` value
in an `HSET` mapping), `responseError` is a server-side rejection (for
example `GEOADD` coordinates out of range).  Either propagates out of the
store method, leaving the commands already executed in place. -/
inductive RedisError where
  | dataError
  | responseError
deriving DecidableEq

/-- Outcome of one store command: the database state after it, and the error
it raised, if any (the state is unchanged when an error is raised). -/
abbrev RedisResult := ValkeyState × Option RedisError

/-- Run the next command only when the previous one did not raise — the
Python control flow of a method body with no `try`/`except`: the first
exception aborts the remaining commands. -/
def andThen (r : RedisResult) (f : ValkeyState → RedisResult) : RedisResult :=
  match r with
  | (st, none) => f st
  | (st, some e) => (st, some e)

/-- The `position_data` mapping values that can be `None`: `mmsi`, `lat`,
`lon`, `sog` and `cog` are written unconditionally (the other optional
fields are only added to the dictionary when not `None`, and `timestamp`,
`last_seen`, `accuracy` and `message_type` are never `None`).  redis-py
raises `DataError` when any mapping value is `None`. -/
def pos_mapping_complete (d : PosInput) : Bool :=
  d.mmsi.isSome && d.lat.isSome && d.lon.isSome && d.sog.isSome && d.cog.isSome

/-- Store command 1 of `update_ship_position`: `HSET ship:position:{mmsi}`.
redis-py refuses a mapping containing a `None` value with `DataError`
before sending anything, so nothing is written in that case. -/
def cmd_hset_position (data : PosInput) (now : Int) (st : ValkeyState) : RedisResult :=
  if pos_mapping_complete data then
    ({ st with positionHash :=
        fun k => if k = data.mmsi then some (mkPositionData data now) else st.positionHash k },
     none)
  else (st, some RedisError.dataError)

/-- Store command 2 of `update_ship_position`: `EXPIRE ship:position:{mmsi}
3600` (never raises). -/
def cmd_expire_position (data : PosInput) (now : Int) (st : ValkeyState) : RedisResult :=
  ({ st with positionExpire :=
      fun k => if k = data.mmsi then some (now + 3600) else st.positionExpire k },
   none)

/-- `GEOADD` accepts longitudes in [-180, 180]. -/
def geo_lon_valid (lo : Rat) : Bool := -180 ≤ lo ∧ lo ≤ 180

/-- `GEOADD` accepts latitudes in [-85.05112878, 85.05112878]; the bound
85.05112878 = 8505112878/10^8 is compared by cross-multiplication with the
(positive) denominator, which is exact and avoids rational normalization. -/
def geo_lat_valid (la : Rat) : Bool :=
  -8505112878 * (la.den : Int) ≤ la.num * 100000000
  ∧ la.num * 100000000 ≤ 8505112878 * (la.den : Int)

/-- Store command 3 of `update_ship_position`: `GEOADD ships:locations lon
lat mmsi`, guarded by Python truthiness of the latitude and longitude.  The
server validates the coordinates and rejects an out-of-range pair (such as
the AIS sentinels longitude 181 / latitude 91) with a `ResponseError`
instead of writing it. -/
def cmd_geoadd (data : PosInput) (st : ValkeyState) : RedisResult :=
  match data.lat, data.lon with
  | some la, some lo =>
    if la ≠ 0 ∧ lo ≠ 0 then
      if geo_lon_valid lo ∧ geo_lat_valid la then
        ({ st with geoIndex :=
            fun k => if k = data.mmsi then some (lo, la) else st.geoIndex k },
         none)
      else (st, some RedisError.responseError)
    else (st, none)
  | _, _ => (st, none)

/-- Store command 4 of `update_ship_position`: `ZADD ship:history:{mmsi}`
with the serialized position snapshot scored by the current epoch second
(never raises). -/
def cmd_zadd_history (data : PosInput) (now : Int) (st : ValkeyState) : RedisResult :=
  ({ st with history :=
      fun k => if k = data.mmsi then zadd (st.history k) (mkPositionData data now) now
               else st.history k },
   none)

/-- Store command 5 of `update_ship_position`: `ZREMRANGEBYSCORE
ship:history:{mmsi} 0 cutoff` with `cutoff` 24 hours before now (never
raises). -/
def cmd_zrem_history (data : PosInput) (now : Int) (st : ValkeyState) : RedisResult :=
  ({ st with history :=
      fun k => if k = data.mmsi then zremrangebyscore (st.history k) 0 (now - 86400)
               else st.history k },
   none)

/-- `ValkeyAISStore.update_ship_position`: the five client commands issued in
sequence, with no transaction around them and no `try`/`except` in the
method — the first command that raises aborts the rest, and the commands
already executed stay applied. -/
def update_ship_position (st : ValkeyState) (data : PosInput) (now : Int) : RedisResult :=
  andThen (andThen (andThen (andThen
    (cmd_hset_position data now st)
    (cmd_expire_position data now))
    (cmd_geoadd data))
    (cmd_zadd_history data now))
    (cmd_zrem_history data now)

/-- The `GEOADD` step succeeds (or is skipped by the truthiness guard)
exactly when a truthy coordinate pair lies inside the server's accepted
ranges. -/
def geoadd_ok (d : PosInput) : Bool :=
  match d.lat, d.lon with
  | some la, some lo =>
    if la ≠ 0 ∧ lo ≠ 0 then geo_lon_valid lo && geo_lat_valid la else true
  | _, _ => true

/-- The `ship_info` dictionary built by `update_ship_info`. -/
def mkShipInfo (data : StaticInput) (now : Int) : ShipInfo :=
  { mmsi := data.mmsi
    vesselName := data.name
    callsign := data.callsign
    imo := data.imo
    shipTypeField := data.shipTypeField
    toBow := data.toBow
    toStern := data.toStern
    toPort := data.toPort
    toStarboard := data.toStarboard
    destination := data.destination
    etaMonth := data.etaMonth
    etaDay := data.etaDay
    etaHour := data.etaHour
    etaMinute := data.etaMinute
    draught := data.draught
    updatedAt := now }

/-- `ValkeyAISStore.update_ship_info`: `HSET ship:info:{mmsi}` (no expiry is
ever set on this key), then, when the IMO is truthy and non-zero, `SET
imo:index:{imo}` to the mmsi. -/
def update_ship_info (st : ValkeyState) (data : StaticInput) (now : Int) : ValkeyState :=
  let st' := { st with infoHash :=
      fun k => if k = data.mmsi then some (mkShipInfo data now) else st.infoHash k }
  match data.imo with
  | some i =>
    if i ≠ 0 then
      { st' with imoIndex := fun j => if j = i then some data.mmsi else st'.imoIndex j }
    else st'
  | none => st'

/-- `ValkeyAISStore.update_base_station`: `HSET base:station:{mmsi}` then
`EXPIRE` with the longer 86400-second time-to-live. -/
def update_base_station (st : ValkeyState) (data : BaseInput) (now : Int) : ValkeyState :=
  { st with
    baseHash := fun k =>
      if k = data.mmsi then
        some { mmsi := data.mmsi, lat := data.lat, lon := data.lon,
               accuracy := data.accuracy, year := data.year, month := data.month,
               day := data.day, hour := data.hour, minute := data.minute,
               second := data.second, updatedAt := now }
      else st.baseHash k
    baseExpire := fun k => if k = data.mmsi then some (now + 86400) else st.baseExpire k }

/-- The position-report dictionary `sort_ais` builds for message types 1, 2
and 3. -/
def mkPosInput123 (m : DecodedMsg) (t : Int) : PosInput :=
  { mmsi := m.mmsi
    timestamp := m.timestamp
    lat := m.lat
    lon := m.lon
    accuracy := m.accuracy.getD false
    sog := m.speed
    cog := m.course
    heading := m.heading
    rot := m.turn
    navStatus := m.status
    messageType := t }

/-- The position-report dictionary `sort_ais` builds for message type 18:
the `getattr` default for `timestamp` is the current instant, the dictionary
carries no `rot` and an empty `voyage_info`, so `update_ship_position` finds
neither `rot` nor `nav_status`. -/
def mkPosInput18 (m : DecodedMsg) (t : Int) (now : Int) : PosInput :=
  { mmsi := m.mmsi
    timestamp := some (m.timestamp.getD now)
    lat := m.lat
    lon := m.lon
    accuracy := m.accuracy.getD false
    sog := m.speed
    cog := m.course
    heading := m.heading
    rot := none
    navStatus := none
    messageType := t }

/-- The static-data dictionary `sort_ais` builds for message type 5. -/
def mkStaticInput (m : DecodedMsg) : StaticInput :=
  { mmsi := m.mmsi
    name := m.shipname.trim
    callsign := m.callsign.trim
    imo := m.imo
    shipTypeField := m.shipTypeField
    toBow := m.toBow
    toStern := m.toStern
    toPort := m.toPort
    toStarboard := m.toStarboard
    destination := m.destination.trim
    etaMonth := m.month
    etaDay := m.day
    etaHour := m.hour
    etaMinute := m.minute
    draught := m.draught }

/-- The base-station dictionary `sort_ais` builds for message type 4. -/
def mkBaseInput (m : DecodedMsg) : BaseInput :=
  { mmsi := m.mmsi
    year := m.year
    month := m.month
    day := m.day
    hour := m.hour
    minute := m.minute
    second := m.second
    lat := m.lat
    lon := m.lon
    accuracy := m.accuracy.getD false }

/-- One iteration of the loop in `sort_ais`: dispatch on `msg_type` (a
message without the attribute is skipped), build the per-type dictionary,
and hand it to the store only when the per-type truthiness guard passes.
The surrounding `try`/`except` catches any store error and moves to the
next message, keeping whatever commands had already executed — hence the
`.1` projection on the store result. -/
def sort_ais_one (st : ValkeyState) (m : DecodedMsg) (now : Int) : ValkeyState :=
  match m.msgType with
  | none => st
  | some t =>
    if t = 1 ∨ t = 2 ∨ t = 3 then
      let data := mkPosInput123 m t
      if truthyOptInt data.mmsi && truthyOptRat data.lat && truthyOptRat data.lon then
        (update_ship_position st data now).1
      else st
    else if t = 5 then
      let data := mkStaticInput m
      if truthyOptInt data.mmsi && (data.name != "") then
        update_ship_info st data now
      else st
    else if t = 18 then
      let data := mkPosInput18 m t now
      if truthyOptInt data.mmsi && truthyOptRat data.lat && truthyOptRat data.lon then
        (update_ship_position st data now).1
      else st
    else if t = 4 then
      let data := mkBaseInput m
      if truthyOptInt data.mmsi then
        update_base_station st data now
      else st
    else st

/-! Component lemmas for the store commands. -/

theorem andThen_none (st : ValkeyState) (f : ValkeyState → RedisResult) :
    andThen (st, none) f = f st := rfl

theorem andThen_some (st : ValkeyState) (e : RedisError) (f : ValkeyState → RedisResult) :
    andThen (st, some e) f = (st, some e) := rfl

theorem cmd_hset_position_of_complete (d : PosInput) (now : Int) (st : ValkeyState)
    (h : pos_mapping_complete d = true) :
    cmd_hset_position d now st =
      ({ st with positionHash :=
          fun k => if k = d.mmsi then some (mkPositionData d now) else st.positionHash k },
       none) := by
  unfold cmd_hset_position
  rw [if_pos h]

theorem cmd_geoadd_preserves (d : PosInput) (st : ValkeyState) :
    (cmd_geoadd d st).1.positionHash = st.positionHash
    ∧ (cmd_geoadd d st).1.positionExpire = st.positionExpire
    ∧ (cmd_geoadd d st).1.history = st.history
    ∧ (cmd_geoadd d st).1.infoHash = st.infoHash := by
  unfold cmd_geoadd
  rcases d.lat with _ | la <;> rcases d.lon with _ | lo <;>
    refine ⟨?_, ?_, ?_, ?_⟩ <;> (try split) <;> (try split) <;> (try split) <;> rfl

theorem cmd_geoadd_none_of_ok (d : PosInput) (st : ValkeyState)
    (hg : geoadd_ok d = true) : (cmd_geoadd d st).2 = none := by
  unfold cmd_geoadd
  unfold geoadd_ok at hg
  rcases hla : d.lat with _ | la <;> rcases hlo : d.lon with _ | lo
  · rfl
  · rfl
  · rfl
  · rw [hla, hlo] at hg
    show (if la ≠ 0 ∧ lo ≠ 0 then
            if geo_lon_valid lo = true ∧ geo_lat_valid la = true then
              ({ st with geoIndex :=
                  fun k => if k = d.mmsi then some (lo, la) else st.geoIndex k },
               (none : Option RedisError))
            else (st, some RedisError.responseError)
          else (st, none)).2 = none
    split_ifs with h1 h2
    · rfl
    · simp_all
    · rfl

theorem update_ship_position_of_complete (st : ValkeyState) (d : PosInput) (now : Int)
    (h : pos_mapping_complete d = true) :
    update_ship_position st d now
      = andThen (andThen
          (cmd_geoadd d (cmd_expire_position d now (cmd_hset_position d now st).1).1)
          (cmd_zadd_history d now)) (cmd_zrem_history d now) := by
  unfold update_ship_position
  rw [cmd_hset_position_of_complete d now st h]
  rfl

theorem history_update_ship_position (st : ValkeyState) (d : PosInput) (now : Int)
    (h : pos_mapping_complete d = true) (hg : geoadd_ok d = true) :
    (update_ship_position st d now).1.history =
      fun k => if k = d.mmsi then
          zremrangebyscore (zadd (st.history k) (mkPositionData d now) now) 0 (now - 86400)
        else st.history k := by
  rw [update_ship_position_of_complete st d now h]
  have hbase : (cmd_expire_position d now (cmd_hset_position d now st).1).1.history
      = st.history := by
    rw [cmd_hset_position_of_complete d now st h]
    rfl
  have hpres := (cmd_geoadd_preserves d
    (cmd_expire_position d now (cmd_hset_position d now st).1).1).2.2.1
  have hok := cmd_geoadd_none_of_ok d
    (cmd_expire_position d now (cmd_hset_position d now st).1).1 hg
  rcases hgo : cmd_geoadd d (cmd_expire_position d now (cmd_hset_position d now st).1).1
    with ⟨sg, og⟩
  rw [hgo] at hpres hok
  have hog : og = none := hok
  subst hog
  have hsg : sg.history = st.history := hpres.trans hbase
  show (cmd_zrem_history d now (cmd_zadd_history d now sg).1).1.history = _
  funext k
  by_cases hk : k = d.mmsi <;> simp [cmd_zrem_history, cmd_zadd_history, hk, hsg]

/-- C10: for every sentence with fragment count greater than 1 whose
message-group identifier field is empty, the parser reports the sentence
complete immediately and leaves the fragment map unchanged — a partial
fragment with no group identifier is treated as a whole message rather than
buffered or rejected. -/
theorem C10_no_group_id_completes_immediately (st : FragMap) (msg : List Char)
    (core : ParsedCore) (h : parse_fields msg = some core)
    (hfc : 1 < core.fragmentCount) (hmid : core.messageId = none) :
    parse_nmea_message st msg = (some ⟨core, true⟩, st) := by
  unfold parse_nmea_message
  rw [h]
  have h1 : ¬ core.fragmentCount = 1 := by omega
  simp [h1, hmid, is_message_complete]

/-- Concrete two-fragment sentence with an empty group-identifier field. -/
def c10core : ParsedCore :=
  { raw := "!AIVDM,2,1,,A,AAA,0*25".toList
    talkerId := "AI".toList
    sentenceTypeField := "VDM".toList
    fragmentCount := 2
    fragmentNumber := 1
    messageId := none
    channel := "A".toList
    data := "AAA".toList
    checksum := none }

/-- Witness for C10: a concrete first-of-two fragment with no group
identifier parses as complete with the fragment map left untouched. -/
theorem C10_no_group_id_completes_immediately_witness :
    parse_nmea_message fragEmpty ("!AIVDM,2,1,,A,AAA,0*25".toList) =
      (some ⟨c10core, true⟩, fragEmpty) :=
  C10_no_group_id_completes_immediately fragEmpty _ c10core (by decide) (by decide) (by decide)

/-- C5: extracting the AIS message type maps the first payload character to
its 6-bit value through the two-range armor alphabet (both ranges give code
point minus 48, a value below 64) and returns it as the message type without
further validity filtering; a first character outside the alphabet, or an
empty payload, yields `none` rather than an exception. -/
theorem C5_message_type_extraction (data : List Char) :
    (data = [] → get_ais_message_type data = none)
    ∧ (∀ c rest, data = c :: rest →
        ((("0123456789:;<=>?".toList).contains c = true →
            get_ais_message_type data = some (c.toNat - 48) ∧ c.toNat - 48 < 64)
         ∧ (("@ABCDEFGHIJKLMNOPQRSTUVWXYZ[\\]^_".toList).contains c = true →
            get_ais_message_type data = some (c.toNat - 48) ∧ c.toNat - 48 < 64)
         ∧ (("0123456789:;<=>?".toList).contains c = false →
            ("@ABCDEFGHIJKLMNOPQRSTUVWXYZ[\\]^_".toList).contains c = false →
            get_ais_message_type data = none))) := by
  constructor
  · rintro rfl
    rfl
  · rintro c rest rfl
    refine ⟨fun hc => ?_, fun hc => ?_, fun hc1 hc2 => ?_⟩
    · have hmem : c ∈ ("0123456789:;<=>?".toList) := by
        simpa [List.contains] using hc
      fin_cases hmem <;> exact ⟨rfl, by decide⟩
    · have hmem : c ∈ ("@ABCDEFGHIJKLMNOPQRSTUVWXYZ[\\]^_".toList) := by
        simpa [List.contains] using hc
      fin_cases hmem <;> exact ⟨rfl, by decide⟩
    · simp only [get_ais_message_type, hc1, hc2]
      simp

/-- Witness for C5: the three branches at concrete payloads — `'1'` maps to
type 1, `'B'` maps to type 18, `'a'` is outside the alphabet. -/
theorem C5_message_type_extraction_witness :
    (get_ais_message_type ("1abc".toList) = some ('1'.toNat - 48) ∧ '1'.toNat - 48 < 64)
    ∧ (get_ais_message_type ("B000".toList) = some ('B'.toNat - 48) ∧ 'B'.toNat - 48 < 64)
    ∧ get_ais_message_type ("a111".toList) = none :=
  ⟨((C5_message_type_extraction ("1abc".toList)).2 '1' "abc".toList (by decide)).1 (by decide),
   ((C5_message_type_extraction ("B000".toList)).2 'B' "000".toList (by decide)).2.1 (by decide),
   ((C5_message_type_extraction ("a111".toList)).2 'a' "111".toList (by decide)).2.2
     (by decide) (by decide)⟩

/-- Modelled from the spec: a Position Report is usable when its MMSI is
present and non-zero and its latitude and longitude are present and not the
AIS "not available" sentinels (latitude 91, longitude 181). -/
def spec_usable_position (m : DecodedMsg) : Bool :=
  (match m.mmsi with | some n => n != 0 | none => false)
  && (match m.lat with | some la => la != 91 | none => false)
  && (match m.lon with | some lo => lo != 181 | none => false)

/-- A decoded message with every optional attribute absent. -/
def blankMsg : DecodedMsg :=
  { msgType := none, mmsi := none, lat := none, lon := none, speed := none,
    course := none, heading := none, turn := none, status := none,
    accuracy := none, timestamp := none, shipname := "", callsign := "",
    imo := none, shipTypeField := none, toBow := none, toStern := none,
    toPort := none, toStarboard := none, destination := "", year := none,
    month := none, day := none, hour := none, minute := none, second := none,
    draught := none }

/-- A type-1 position report carrying the "not available" sentinel
coordinates (latitude 91, longitude 181), with the speed and course fields
present, as every `pyais`-decoded type-1 report has them (course at its own
"not available" sentinel 360). -/
def m91 : DecodedMsg :=
  { blankMsg with msgType := some 1, mmsi := some 123456789,
                  lat := some 91, lon := some 181,
                  speed := some 12, course := some 360 }

/-- C1 counterexample: the claim says a position report whose latitude and
longitude are the sentinel values 91 and 181 is unusable, discarded, and
never written to the store; `sort_ais` filters with Python truthiness only,
and 91/181 are truthy, so the message IS handed to the store and its `HSET`
and `EXPIRE` land the sentinel coordinates in the position hash before
`GEOADD` rejects (181, 91) as out of range and aborts the history append
(the error is caught in `sort_ais` and the loop continues).  The spatial
index and the history are left untouched — but the report is not
discarded. -/
theorem C1_counterexample_sentinel_is_stored :
    spec_usable_position m91 = false
    ∧ (sort_ais_one emptyValkey m91 0).positionHash (some 123456789)
        = some (mkPositionData (mkPosInput123 m91 1) 0)
    ∧ (sort_ais_one emptyValkey m91 0).positionExpire (some 123456789) = some 3600
    ∧ (sort_ais_one emptyValkey m91 0).geoIndex (some 123456789) = none
    ∧ (sort_ais_one emptyValkey m91 0).history (some 123456789) = [] :=
  ⟨by decide, by decide, by decide, by decide, by decide⟩

/-- C1 as amended: for message types 1, 2, 3 and 18, `sort_ais` hands the
report to `update_ship_position` exactly when the MMSI, latitude and
longitude are all present and non-zero (Python truthiness); the sentinel
values latitude 91 / longitude 181 pass this filter (so a sentinel report
reaches the store, where the hash write lands before `GEOADD` rejects the
out-of-range pair), while the genuine coordinates latitude 0 or longitude 0
fail it; a filtered message leaves the store untouched. -/
theorem C1_truthiness_filter (st : ValkeyState) (m : DecodedMsg) (t now : Int)
    (hm : m.msgType = some t) (ht : t = 1 ∨ t = 2 ∨ t = 3 ∨ t = 18) :
    ((truthyOptInt m.mmsi && truthyOptRat m.lat && truthyOptRat m.lon) = true →
      sort_ais_one st m now =
        (update_ship_position st
          (if t = 18 then mkPosInput18 m t now else mkPosInput123 m t) now).1)
    ∧ ((truthyOptInt m.mmsi && truthyOptRat m.lat && truthyOptRat m.lon) = false →
      sort_ais_one st m now = st) := by
  rcases ht with rfl | rfl | rfl | rfl <;>
    exact ⟨fun h => by simp [sort_ais_one, hm, mkPosInput123, mkPosInput18, h],
           fun h => by simp [sort_ais_one, hm, mkPosInput123, mkPosInput18, h]⟩

/-- A type-18 report with a zero (equator) latitude. -/
def mLat0 : DecodedMsg :=
  { blankMsg with msgType := some 18, mmsi := some 123456789,
                  lat := some 0, lon := some 10 }

/-- Witness for the amended C1: the sentinel message is handed to the store,
and a report at latitude 0 is dropped without touching the store. -/
theorem C1_truthiness_filter_witness :
    sort_ais_one emptyValkey m91 0
        = (update_ship_position emptyValkey (mkPosInput123 m91 1) 0).1
    ∧ sort_ais_one emptyValkey mLat0 0 = emptyValkey :=
  ⟨by
    have h := (C1_truthiness_filter emptyValkey m91 1 0 (by decide)
      (by decide)).1 (by decide)
    simpa using h,
   (C1_truthiness_filter emptyValkey mLat0 18 0 (by decide) (by decide)).2 (by decide)⟩

/-- Position input moving MMSI 123 from (lat 10, lon 20); every mapping
value is present and the coordinates are in `GEOADD` range, so all five
store commands succeed. -/
def d0c2 : PosInput :=
  { mmsi := some 123, timestamp := none, lat := some 10, lon := some 20,
    accuracy := false, sog := some 5, cog := some 90, heading := none, rot := none,
    navStatus := none, messageType := 1 }

/-- The follow-up position input moving MMSI 123 to (lat 30, lon 40). -/
def d1c2 : PosInput := { d0c2 with lat := some 30, lon := some 40 }

/-- The store state after the first upsert has fully landed. -/
def stC2 : ValkeyState := (update_ship_position emptyValkey d0c2 100).1

/-- C2 evidence: `update_ship_position` issues its five store commands as
separate client calls with no transaction, so the state reached after the
`HSET`+`EXPIRE` commands but before the `GEOADD` — a state any concurrent
reader can observe — holds the refreshed position hash next to the stale
spatial-index entry, which differs from the entry the completed upsert
writes.  This contradicts the claimed all-four-effects atomicity. -/
theorem C2_partial_write_observable :
    (cmd_expire_position d1c2 200 (cmd_hset_position d1c2 200 stC2).1).1.positionHash
        (some 123) = some (mkPositionData d1c2 200)
    ∧ (cmd_expire_position d1c2 200 (cmd_hset_position d1c2 200 stC2).1).1.geoIndex
        (some 123) = some (20, 10)
    ∧ (update_ship_position stC2 d1c2 200).1.positionHash (some 123)
        = some (mkPositionData d1c2 200)
    ∧ (update_ship_position stC2 d1c2 200).1.geoIndex (some 123) = some (40, 30)
    ∧ ((20 : Rat), (10 : Rat)) ≠ ((40 : Rat), (30 : Rat)) :=
  ⟨by decide, by decide, by decide, by decide, by decide⟩

/-- C3 as amended: for a multi-fragment submission (count > 1, group
identifier present) the parser reports completion exactly when the seen-set
with this fragment's index added equals `{1..count}`; on completion the
group is removed from the fragment map, otherwise the group maps to the
grown seen-set; and the payload field of a parse result depends only on the
sentence itself — the decoder buffers no payload slices, so the emitted
payload is the completing fragment's own slice, never a concatenation. -/
theorem C3_completion_invariant (st : FragMap) (mid : List Char) (fn fc : Int)
    (hfc : 1 < fc) :
    ((is_message_complete st (some mid) fn fc).1 = true
       ↔ insert fn ((st mid).getD ∅) = Finset.Icc 1 fc)
    ∧ ((is_message_complete st (some mid) fn fc).1 = true →
        (is_message_complete st (some mid) fn fc).2 mid = none)
    ∧ ((is_message_complete st (some mid) fn fc).1 = false →
        (is_message_complete st (some mid) fn fc).2 mid
          = some (insert fn ((st mid).getD ∅)))
    ∧ (∀ (msg : List Char) (stA stB : FragMap) (pA pB : ParsedNmea)
         (stA' stB' : FragMap),
        parse_nmea_message stA msg = (some pA, stA') →
        parse_nmea_message stB msg = (some pB, stB') →
        pA.core = pB.core) := by
  have h1 : ¬ fc = 1 := by omega
  refine ⟨?_, ?_, ?_, ?_⟩
  · unfold is_message_complete
    by_cases hs : insert fn ((st mid).getD ∅) = Finset.Icc 1 fc <;> simp [h1, hs]
  · unfold is_message_complete
    by_cases hs : insert fn ((st mid).getD ∅) = Finset.Icc 1 fc <;> simp [h1, hs]
  · unfold is_message_complete
    by_cases hs : insert fn ((st mid).getD ∅) = Finset.Icc 1 fc <;> simp [h1, hs]
  · intro msg stA stB pA pB stA' stB' hA hB
    unfold parse_nmea_message at hA hB
    rcases hpf : parse_fields msg with _ | core <;> rw [hpf] at hA hB
    · simp at hA
    · by_cases hc : core.fragmentCount = 1 <;> simp [hc] at hA hB
      · rw [← hA.1, ← hB.1]
      · rw [← hA.1, ← hB.1]

/-- Witness for the amended C3: completing the second of two fragments
reports completion, erases the group, and emits only that fragment's own
payload slice. -/
theorem C3_completion_invariant_witness :
    ((is_message_complete
        (parse_nmea_message fragEmpty ("!AIVDM,2,1,7,A,AAA,0*25".toList)).2
        (some ("7".toList)) 2 2).1 = true
      ↔ insert (2 : Int)
          (((parse_nmea_message fragEmpty ("!AIVDM,2,1,7,A,AAA,0*25".toList)).2
              ("7".toList)).getD ∅) = Finset.Icc 1 2) :=
  (C3_completion_invariant
    (parse_nmea_message fragEmpty ("!AIVDM,2,1,7,A,AAA,0*25".toList)).2
    ("7".toList) 2 2 (by decide)).1

/-- C3 counterexample: the claim says the payload emitted on completion is
the concatenation of the group's payload slices in index order; submitting
the two fragments `AAA` then `BBB` of group 7, the completing parse result
carries `BBB` alone — the decoder never stores ("AISDecoder.message_fragments"
holds only index sets) nor concatenates payload slices.  The group IS
removed from the map on completion. -/
theorem C3_counterexample_no_concatenation :
    (∃ p : ParsedNmea,
      (parse_nmea_message
          (parse_nmea_message fragEmpty ("!AIVDM,2,1,7,A,AAA,0*25".toList)).2
          ("!AIVDM,2,2,7,A,BBB,0*25".toList)).1 = some p
      ∧ p.isComplete = true
      ∧ p.core.data = "BBB".toList
      ∧ p.core.data ≠ ("AAA".toList ++ "BBB".toList))
    ∧ (parse_nmea_message
        (parse_nmea_message fragEmpty ("!AIVDM,2,1,7,A,AAA,0*25".toList)).2
        ("!AIVDM,2,2,7,A,BBB,0*25".toList)).2 ("7".toList) = none :=
  ⟨⟨_, rfl, rfl, by decide, by decide⟩, by decide⟩

/-- C4 as amended: the fragment buffer has no age-based eviction.  The
decoder state records no arrival times; a group's entry changes only when a
submission names that very group, so a group left incomplete (for example
with one missing fragment index) survives any amount of other traffic — and
any amount of elapsed time — and a present group disappears only through a
submission to it that reports completion. -/
theorem C4_no_eviction :
    (∀ (st : FragMap) (g : List Char)
       (subs : List (Option (List Char) × Int × Int)),
       (∀ sub ∈ subs, sub.1 ≠ some g) → submit_all st subs g = st g)
    ∧ (∀ (st : FragMap) (g : List Char) (fn fc : Int), st g ≠ none →
        (is_message_complete st (some g) fn fc).2 g = none →
        (is_message_complete st (some g) fn fc).1 = true) := by

  constructor
  · intro st g subs h
    induction subs generalizing st with
    | nil => rfl
    | cons a tl ih =>
      have ha : a.1 ≠ some g := h a (by simp)
      have htl : ∀ sub ∈ tl, sub.1 ≠ some g := fun s hs => h s (by simp [hs])
      show submit_all (submit_step st a) tl g = st g
      rw [ih (submit_step st a) htl]
      unfold submit_step is_message_complete
      rcases hm : a.1 with _ | mid
      · rfl
      · have hne : ¬ g = mid := fun e => ha (by rw [hm, e])
        by_cases hfc : a.2.2 = 1 <;>
          by_cases hs : insert a.2.1 ((st mid).getD ∅) = Finset.Icc 1 a.2.2 <;>
          simp [hfc, hs, hne]
  · intro st g fn fc _hg h
    unfold is_message_complete at h ⊢
    by_cases hfc : fc = 1
    · simp [hfc]
    · by_cases hs : insert fn ((st g).getD ∅) = Finset.Icc 1 fc
      · simp [hfc, hs]
      · simp [hfc, hs] at h

/-- The buffer holding incomplete group A (index 1 of 2 seen). -/
def stFragA : FragMap := (is_message_complete fragEmpty (some ("A".toList)) 1 2).2

/-- The later traffic: fragments of other groups, a group-less fragment, a
single-fragment sentence, and the completion of group B. -/
def subsAfterA : List (Option (List Char) × Int × Int) :=
  [(some ("B".toList), 1, 2), (none, 1, 3), (some ("C".toList), 1, 1),
   (some ("B".toList), 2, 2)]

/-- Witness for the amended C4: group A survives the later traffic
untouched. -/
theorem C4_no_eviction_witness :
    submit_all stFragA subsAfterA ("A".toList) = stFragA ("A".toList) :=
  C4_no_eviction.1 stFragA ("A".toList) subsAfterA (by decide)

/-- C4 counterexample: the claim says an incomplete group (one missing
index) is absent from the buffer once the eviction window elapses; the
decoder keeps no clock and runs no sweep, so after arbitrary further
traffic the incomplete group A still maps to its seen-set `{1}` — it is
never absent. -/
theorem C4_counterexample_group_never_removed :
    stFragA ("A".toList) = some ({1} : Finset Int)
    ∧ submit_all stFragA subsAfterA ("A".toList) = some ({1} : Finset Int) :=
  ⟨by decide, by decide⟩

/-! Lemmas about `splitOnChar` and `xorBytes` for the checksum claim. -/

theorem splitOnChar_of_not_mem (sep : Char) (l : List Char) (h : sep ∉ l) :
    splitOnChar sep l = [l] := by
  induction l with
  | nil => rfl
  | cons c t ih =>
    have hc : ¬ c = sep := by rintro rfl; exact h (by simp)
    have ht : sep ∉ t := fun m => h (by simp [m])
    simp [splitOnChar, hc, ih ht]

theorem splitOnChar_append (sep : Char) (a b : List Char) (h : sep ∉ a) :
    splitOnChar sep (a ++ sep :: b) = a :: splitOnChar sep b := by
  induction a with
  | nil => simp [splitOnChar]
  | cons c t ih =>
    have hc : ¬ c = sep := by rintro rfl; exact h (by simp)
    have ht : sep ∉ t := fun m => h (by simp [m])
    rw [List.cons_append, splitOnChar]
    simp only [hc, if_false, ih ht]

theorem foldl_xor_shift : ∀ (l : List Char) (x : Nat),
    l.foldl (fun a c => a ^^^ c.toNat) x = x ^^^ xorBytes l
  | [], x => by simp [xorBytes]
  | c :: t, x => by
    have h1 := foldl_xor_shift t (x ^^^ c.toNat)
    have h2 := foldl_xor_shift t (0 ^^^ c.toNat)
    simp only [xorBytes, List.foldl_cons] at *
    rw [h1, h2, Nat.zero_xor, Nat.xor_assoc]

theorem xorBytes_cons (c : Char) (t : List Char) :
    xorBytes (c :: t) = c.toNat ^^^ xorBytes t := by
  simp only [xorBytes, List.foldl_cons]
  rw [foldl_xor_shift, Nat.zero_xor]
  rfl

theorem xorBytes_append (a b : List Char) :
    xorBytes (a ++ b) = xorBytes a ^^^ xorBytes b := by
  simp only [xorBytes, List.foldl_append]
  rw [foldl_xor_shift]
  rfl

theorem char_toNat_injective (a b : Char) (h : a.toNat = b.toNat) : a = b :=
  Char.eq_of_val_eq (UInt32.ext h)

theorem checksumOk_true_iff (p q : List Char) :
    checksumOk p q = true ↔ pyIntHex q = some ((xorBytes (p.drop 1) : Int)) := by
  unfold checksumOk
  generalize pyIntHex q = o
  cases o with
  | none => simp
  | some e =>
    simp only [beq_iff_eq, Option.some.injEq]
    exact eq_comm

/-- C6: `validate_checksum` is a total boolean function (the embedding is a
Lean function, mirroring the catch-all exception handler); a sentence with
no `*` marker validates false; for a sentence of shape
`mark ++ body ++ '*' ++ suffix` (one `*`, the field-start marker first), it
validates true exactly when the hex value of the suffix equals the running
exclusive-or of the body's bytes; and flipping any one body character of a
validating sentence makes it validate false. -/
theorem C6_checksum_xor_contract (mark : Char) (body suffix : List Char)
    (hmark : mark ≠ '*') (hb : '*' ∉ body) (hs : '*' ∉ suffix) :
    (∀ m : List Char, '*' ∉ m → validate_checksum m = false)
    ∧ (validate_checksum (mark :: (body ++ '*' :: suffix)) = true
        ↔ pyIntHex suffix = some ((xorBytes body : Int)))
    ∧ (∀ (u v : List Char) (ch c' : Char), body = u ++ ch :: v → c' ≠ ch →
        validate_checksum (mark :: (body ++ '*' :: suffix)) = true →
        validate_checksum (mark :: ((u ++ c' :: v) ++ '*' :: suffix)) = false) := by
  have hsplit : splitOnChar '*' (mark :: (body ++ '*' :: suffix))
      = [mark :: body, suffix] := by
    have hmb : '*' ∉ mark :: body := by
      intro hm
      rcases List.mem_cons.mp hm with hm | hm
      · exact hmark hm.symm
      · exact hb hm
    have := splitOnChar_append '*' (mark :: body) suffix hmb
    rw [List.cons_append] at this
    rw [this, splitOnChar_of_not_mem '*' suffix hs]
  have hiff : validate_checksum (mark :: (body ++ '*' :: suffix)) = true
      ↔ pyIntHex suffix = some ((xorBytes body : Int)) := by
    rw [validate_checksum, hsplit]
    show checksumOk (mark :: body) suffix = true ↔ _
    rw [checksumOk_true_iff]
    simp
  refine ⟨?_, hiff, ?_⟩
  · intro m hm
    rw [validate_checksum, splitOnChar_of_not_mem '*' m hm]
  · intro u v ch c' hbody hne hvalid
    have hu : '*' ∉ u := fun m => hb (by rw [hbody]; simp [m])
    have hv : '*' ∉ v := fun m => hb (by rw [hbody]; simp [m])
    have hexp : pyIntHex suffix = some ((xorBytes body : Int)) := hiff.mp hvalid
    by_cases hstar : c' = '*'
    · subst hstar
      have h1 : splitOnChar '*' (mark :: ((u ++ '*' :: v) ++ '*' :: suffix))
          = [mark :: u, v, suffix] := by
        have hmu : '*' ∉ mark :: u := by
          intro hm
          rcases List.mem_cons.mp hm with hm | hm
          · exact hmark hm.symm
          · exact hu hm
        have e : mark :: ((u ++ '*' :: v) ++ '*' :: suffix)
            = (mark :: u) ++ '*' :: (v ++ '*' :: suffix) := by simp
        rw [e, splitOnChar_append '*' (mark :: u) _ hmu,
          splitOnChar_append '*' v suffix hv, splitOnChar_of_not_mem '*' suffix hs]
      rw [validate_checksum, h1]
    · have hmuv : '*' ∉ mark :: (u ++ c' :: v) := by
        intro hm
        rcases List.mem_cons.mp hm with hm | hm
        · exact hmark hm.symm
        · rcases List.mem_append.mp hm with hm | hm
          · exact hu hm
          · rcases List.mem_cons.mp hm with hm | hm
            · exact hstar hm.symm
            · exact hv hm
      have h1 : splitOnChar '*' (mark :: ((u ++ c' :: v) ++ '*' :: suffix))
          = [mark :: (u ++ c' :: v), suffix] := by
        have h2 := splitOnChar_append '*' (mark :: (u ++ c' :: v)) suffix hmuv
        rw [List.cons_append] at h2
        rw [h2, splitOnChar_of_not_mem '*' suffix hs]
      have hxor : xorBytes (u ++ c' :: v) ≠ xorBytes body := by
        rw [hbody, xorBytes_append, xorBytes_append, xorBytes_cons, xorBytes_cons]
        intro h
        have h2 := Nat.xor_right_inj.mp h
        have h3 := Nat.xor_left_inj.mp h2
        exact hne (char_toNat_injective c' ch h3)
      have hneq : ¬ (pyIntHex suffix = some ((xorBytes (u ++ c' :: v) : Int))) := by
        rw [hexp]
        intro h
        exact hxor (Nat.cast_inj.mp (Option.some.inj h)).symm
      rw [validate_checksum, h1]
      show checksumOk (mark :: (u ++ c' :: v)) suffix = false
      rcases hck : checksumOk (mark :: (u ++ c' :: v)) suffix with _ | _
      · rfl
      · exact absurd (by simpa using (checksumOk_true_iff _ _).mp hck) hneq

/-- Witness for C6: `!AB*03` carries the correct checksum (65 xor 66 = 3)
and validates; flipping its first payload character to `C` invalidates it. -/
theorem C6_checksum_xor_contract_witness :
    validate_checksum ("!AB*03".toList) = true
    ∧ validate_checksum ("!CB*03".toList) = false := by
  have h := C6_checksum_xor_contract '!' ("AB".toList) ("03".toList)
    (by decide) (by decide) (by decide)
  have e1 : "!AB*03".toList = '!' :: ("AB".toList ++ '*' :: "03".toList) := by decide
  have e2 : "!CB*03".toList = '!' :: (([] ++ 'C' :: ['B']) ++ '*' :: "03".toList) := by
    decide
  constructor
  · rw [e1]
    exact h.2.1.mpr (by decide)
  · rw [e2]
    exact h.2.2 [] ['B'] 'A' 'C' (by decide) (by decide) (h.2.1.mpr (by decide))

/-! Lemmas about the history commands for the retention claim. -/

/-- The pair of history commands issued by `update_ship_position` (lines
72–78 of `main.py`): `ZADD` the snapshot at the current second, then
`ZREMRANGEBYSCORE` away everything at or before the 24-hour cutoff. -/
def history_append (hist : List (PositionData × Int)) (member : PositionData)
    (now : Int) : List (PositionData × Int) :=
  zremrangebyscore (zadd hist member now) 0 (now - 86400)

/-- A sequence of history appends starting from the empty key. -/
def run_appends (entries : List (PositionData × Int)) : List (PositionData × Int) :=
  entries.foldl (fun h e => history_append h e.1 e.2) []

theorem mem_zadd (hist : List (PositionData × Int)) (m : PositionData) (s : Int)
    (e : PositionData × Int) (he : e ∈ zadd hist m s) : e = (m, s) ∨ e ∈ hist := by
  unfold zadd at he
  by_cases h : hist.any (fun x => x.1 == m)
  · rw [if_pos h] at he
    rcases List.mem_map.mp he with ⟨a, ha, hae⟩
    by_cases hm : a.1 == m
    · left
      rw [← hae, if_pos hm]
    · right
      rw [← hae, if_neg hm]
      exact ha
  · rw [if_neg h] at he
    rcases List.mem_append.mp he with h1 | h1
    · right; exact h1
    · left
      simpa using h1

theorem zadd_of_not_mem (hist : List (PositionData × Int)) (m : PositionData)
    (s : Int) (h : ∀ e ∈ hist, e.1 ≠ m) : zadd hist m s = hist ++ [(m, s)] := by
  unfold zadd
  have hany : hist.any (fun x => x.1 == m) = false := by
    rw [List.any_eq_false]
    intro x hx
    simpa using h x hx
  simp [hany]

theorem zrem_eq_filter (hist : List (PositionData × Int)) (cut : Int)
    (h : ∀ e ∈ hist, 0 ≤ e.2) :
    zremrangebyscore hist 0 cut = hist.filter (fun e => cut < e.2) := by
  unfold zremrangebyscore
  apply List.filter_congr
  intro e he
  have h0 := h e he
  by_cases hc : cut < e.2
  · have hnc : ¬ (0 ≤ e.2 ∧ e.2 ≤ cut) := by omega
    simp [hc, hnc]
  · have hcc : 0 ≤ e.2 ∧ e.2 ≤ cut := by omega
    simp [hc, hcc]

theorem filter_lt_filter_lt (l : List (PositionData × Int)) (a b : Int) (hab : b ≤ a) :
    (l.filter (fun e => b < e.2)).filter (fun e => a < e.2)
      = l.filter (fun e => a < e.2) := by
  rw [List.filter_filter]
  apply List.filter_congr
  intro e _
  by_cases h : a < e.2
  · have hb : b < e.2 := by omega
    simp [h, hb]
  · simp [h]

/-- C8: the history key of an upserted position is exactly the
`ZADD`-then-trim pair; one append on a well-formed (non-negative-score)
history leaves no entry at or before the 24-hour cutoff; and a run of
appends with non-decreasing timestamps and distinct snapshots keeps exactly
the entries whose timestamps lie inside the window of the last append. -/
theorem C8_history_retention :
    (∀ (st : ValkeyState) (d : PosInput) (now : Int),
        pos_mapping_complete d = true → geoadd_ok d = true →
        (update_ship_position st d now).1.history d.mmsi
          = history_append (st.history d.mmsi) (mkPositionData d now) now)
    ∧ (∀ (hist : List (PositionData × Int)) (m : PositionData) (now : Int),
        (∀ e ∈ hist, 0 ≤ e.2) →
        ∀ e ∈ history_append hist m now, now - 86400 < e.2)
    ∧ (∀ (l : List (PositionData × Int)) (m : PositionData) (T : Int),
        (∀ e ∈ l ++ [(m, T)], 0 ≤ e.2) →
        List.Pairwise (· ≤ ·) ((l ++ [(m, T)]).map Prod.snd) →
        ((l ++ [(m, T)]).map Prod.fst).Nodup →
        run_appends (l ++ [(m, T)]) = (l ++ [(m, T)]).filter (fun e => T - 86400 < e.2)) := by
  refine ⟨?_, ?_, ?_⟩
  · intro st d now h1 h2
    rw [history_update_ship_position st d now h1 h2]
    simp [history_append]
  · intro hist m now h0 e he
    rw [history_append] at he
    unfold zremrangebyscore at he
    rcases List.mem_filter.mp he with ⟨hz, hp⟩
    have hp' : e.2 < 0 ∨ now - 86400 < e.2 := by simpa using hp
    rcases mem_zadd hist m now e hz with h | h
    · rw [h]
      omega
    · have := h0 e h
      omega
  · intro l m T h0 hsorted hnodup
    induction l using List.reverseRecOn generalizing m T with
    | nil =>
      have h0T : (0 : Int) ≤ T := by
        have := h0 (m, T) (by simp)
        simpa using this
      rw [run_appends]
      show history_append [] m T = _
      rw [history_append, zadd_of_not_mem _ _ _ (by intro e he; simp at he),
        List.nil_append,
        zrem_eq_filter _ _ (by
          intro e he
          simp at he
          rw [he]
          exact h0T)]
    | append_singleton l' x ih =>
      obtain ⟨m', T'⟩ := x
      have hTT' : T' ≤ T := by
        rw [List.map_append, List.pairwise_append] at hsorted
        exact hsorted.2.2 T' (by simp) T (by simp)
      have hmnotin : m ∉ (l' ++ [(m', T')]).map Prod.fst := by
        rw [List.map_append, List.nodup_append] at hnodup
        intro hmem
        exact hnodup.2.2 hmem (by simp)
      have h0' : ∀ e ∈ (l' ++ [(m', T')]) ++ [(m, T)], 0 ≤ e.2 := h0
      have hpre0 : ∀ e ∈ l' ++ [(m', T')], 0 ≤ e.2 := fun e he =>
        h0 e (List.mem_append.mpr (Or.inl he))
      have ihres := ih m' T' hpre0
        (by
          rw [List.map_append, List.pairwise_append] at hsorted
          exact hsorted.1)
        (by
          rw [List.map_append, List.nodup_append] at hnodup
          exact hnodup.1)
      have hstep : run_appends ((l' ++ [(m', T')]) ++ [(m, T)])
          = history_append (run_appends (l' ++ [(m', T')])) m T := by
        rw [run_appends, run_appends, List.foldl_append]
        rfl
      rw [hstep, ihres, history_append]
      have hnm : ∀ e ∈ (l' ++ [(m', T')]).filter (fun e => T' - 86400 < e.2),
          e.1 ≠ m := by
        intro e he hfst
        exact hmnotin (hfst ▸ List.mem_map_of_mem Prod.fst (List.mem_filter.mp he).1)
      rw [zadd_of_not_mem _ _ _ hnm]
      have hnn : ∀ e ∈ (l' ++ [(m', T')]).filter (fun e => T' - 86400 < e.2) ++ [(m, T)],
          0 ≤ e.2 := by
        intro e he
        rcases List.mem_append.mp he with he | he
        · exact hpre0 e (List.mem_filter.mp he).1
        · simp at he
          rw [he]
          have := h0 (m, T) (by simp)
          simpa using this
      rw [zrem_eq_filter _ _ hnn, List.filter_append,
        filter_lt_filter_lt _ _ _ (by omega), List.filter_append]
      have hT : T - 86400 < T := by omega
      by_cases hT' : T - 86400 < T' <;> simp [List.filter_append, hT, hT']

/-- Two distinct concrete snapshots for the retention witness. -/
def pdOld : PositionData := mkPositionData d0c2 100

/-- The newer concrete snapshot. -/
def pdNew : PositionData := mkPositionData d1c2 100000

/-- Witness for C8: appending an old and then a much newer snapshot keeps
exactly the entry inside the 24-hour window of the last append. -/
theorem C8_history_retention_witness :
    run_appends [(pdOld, 100), (pdNew, 100000)]
      = [(pdOld, 100), (pdNew, 100000)].filter (fun e => 100000 - 86400 < e.2) :=
  C8_history_retention.2.2 [(pdOld, 100)] pdNew 100000
    (by decide) (by decide) (by decide)

end OceanID
